import Mathlib

/-!
Verification of the cross-chain bridge listener in `src/script.py`
(classes `EventScanner`, `TransactionProcessor`, `BridgeOrchestrator`).

The embedding models Python integers as `Int`, the `processed_transactions`
set of hex strings as `Finset String`, the ledger log read as an oracle
`Int → Int → Except ScanError (List LogReceipt)`, and the destination-side
relay executor `process_lock_event` as an oracle `LogReceipt → Bool`
(its return value at lines 209/213 of the source).  One pass through the
body of the `while True:` loop of `BridgeOrchestrator.run` (lines 280-319)
is the function `run_iteration`.
-/

namespace Bridge

/-- Failure modes of the underlying ledger log read, as classified by the
`except` clauses of `EventScanner.scan_blocks` (lines 145-154):
`BlockNotFound`, `requests.exceptions.Timeout`, any other `Exception`. -/
inductive ScanError
  | blockNotFound
  | timeout
  | unknownError
deriving DecidableEq, Repr

/-- An event log returned by the ledger read, with the fields of the
`TokensLocked` event plus the receipt metadata the script reads:
`transactionHash` (already in hex form, as produced by `.hex()` at line 299),
`blockNumber`, and the event args `sender`, `recipient`, `amount`,
`destinationChainId`. -/
structure LogReceipt where
  transactionHash : String
  blockNumber : Int
  sender : String
  recipient : String
  amount : Int
  destinationChainId : Int
deriving DecidableEq, Repr

/-- The configuration fields of `ConfigManager` used by the loop:
`confirmations_required`, `scan_batch_size`, `poll_interval_seconds`
(lines 35-37). -/
structure Config where
  confirmations_required : Int
  scan_batch_size : Int
  poll_interval_seconds : Int
deriving DecidableEq, Repr

/-- The orchestrator's mutable state after first-run initialisation:
`self.state['last_processed_block']` (an integer once set) and
`self.processed_transactions` (a Python set of hex strings, line 243). -/
structure BridgeState where
  last_processed_block : Int
  processed_transactions : Finset String
deriving DecidableEq

/-- `EventScanner.scan_blocks` (lines 133-154).  If `from_block > to_block`
it returns `[]` before touching the ledger; otherwise it performs exactly one
log read and converts every failure into `[]`.  The second component counts
how many times the underlying ledger read was invoked. -/
def scan_blocks (read : Int → Int → Except ScanError (List LogReceipt))
    (from_block to_block : Int) : List LogReceipt × Nat :=
  if from_block > to_block then ([], 0)
  else
    match read from_block to_block with
    | Except.ok events => (events, 1)
    | Except.error _ => ([], 1)

/-- The per-event relay path, lines 298-307 of `BridgeOrchestrator.run`, for a
single event: skip if the hash is already in `processed`; otherwise invoke
`process_lock_event` (whose outcome is `submitResult`) and add the hash only
on success.  Returns the updated set and the number of executor invocations. -/
def relay_path (submitResult : Bool) (processed : Finset String)
    (e : LogReceipt) : Finset String × Nat :=
  if e.transactionHash ∈ processed then (processed, 0)
  else if submitResult then (insert e.transactionHash processed, 1)
  else (processed, 1)

/-- Running the per-event relay path twice on the same event, the executor
answering `r1` on the first run and `r2` on the second; the count is the total
number of executor invocations across both runs. -/
def relay_path_twice (r1 r2 : Bool) (processed : Finset String)
    (e : LogReceipt) : Finset String × Nat :=
  let a := relay_path r1 processed e
  let b := relay_path r2 a.1 e
  (b.1, a.2 + b.2)

/-- The `for event in events:` loop (lines 298-307): events are handled in
list order; an already-processed hash is skipped, otherwise the relay executor
is invoked and the hash is added on success.  Returns the final processed set
and the list of events actually handed to the executor, in order. -/
def processEvents (relay : LogReceipt → Bool) (processed : Finset String)
    (events : List LogReceipt) : Finset String × List LogReceipt :=
  match events with
  | [] => (processed, [])
  | e :: rest =>
    if e.transactionHash ∈ processed then
      processEvents relay processed rest
    else if relay e then
      let r := processEvents relay (insert e.transactionHash processed) rest
      (r.1, e :: r.2)
    else
      let r := processEvents relay processed rest
      (r.1, e :: r.2)

/-- The external inputs consumed by one pass through the loop body:
the head height reported by `w3_source.eth.block_number` (`none` models the
head query raising, which the outer `except` at line 317 catches), the log
read oracle, and the relay executor outcome per event. -/
structure IterInput where
  head : Option Int
  read : Int → Int → Except ScanError (List LogReceipt)
  relay : LogReceipt → Bool

/-- Everything observable about one pass through the loop body: the new
in-memory state, the events submitted to the executor, the `(from, to)` range
passed to `scan_blocks` (when one was scanned), the checkpoint content written
by `_save_state` (when it ran), and the duration passed to `time.sleep`
(`none` when the iteration did not sleep). -/
structure IterOutcome where
  state : BridgeState
  submitted : List LogReceipt
  scannedRange : Option (Int × Int)
  savedState : Option (Int × Finset String)
  sleptFor : Option Int

/-- One pass through the body of the `while True:` loop of
`BridgeOrchestrator.run` (lines 280-319):
head query (`none` → outer handler: state untouched, sleep `2 * poll`);
`to_block = latest - confirmations_required`, `from_block = last + 1`;
if `from_block > to_block` wait for the poll interval (line 287-290);
otherwise cap `to_block` at `from_block + scan_batch_size - 1` (293-294),
scan, process each event, set `last_processed_block = to_block`, save
(309-310), and sleep iff the batch was not full (314-315). -/
def run_iteration (cfg : Config) (s : BridgeState) (inp : IterInput) :
    IterOutcome :=
  match inp.head with
  | none =>
      { state := s, submitted := [], scannedRange := none, savedState := none,
        sleptFor := some (cfg.poll_interval_seconds * 2) }
  | some latest_block =>
      let to0 := latest_block - cfg.confirmations_required
      let from_block := s.last_processed_block + 1
      if from_block > to0 then
        { state := s, submitted := [], scannedRange := none,
          savedState := none, sleptFor := some cfg.poll_interval_seconds }
      else
        let to_block := if to0 > from_block + cfg.scan_batch_size - 1
                        then from_block + cfg.scan_batch_size - 1 else to0
        let events := (scan_blocks inp.read from_block to_block).1
        let pr := processEvents inp.relay s.processed_transactions events
        { state := { last_processed_block := to_block,
                     processed_transactions := pr.1 },
          submitted := pr.2,
          scannedRange := some (from_block, to_block),
          savedState := some (to_block, pr.1),
          sleptFor := if to_block - from_block < cfg.scan_batch_size - 1
                      then some cfg.poll_interval_seconds else none }

/-- A whole sequence of loop iterations, threading the state. -/
def run_iterations (cfg : Config) (s : BridgeState)
    (inputs : List IterInput) : BridgeState :=
  match inputs with
  | [] => s
  | i :: rest => run_iterations cfg (run_iteration cfg s i).state rest

/-- First-run initialisation, lines 275-278: when the stored
`last_processed_block` is `None`, it is set to
`w3_source.eth.block_number - confirmations_required`. -/
def initial_last_processed (cfg : Config) (stored : Option Int)
    (head : Int) : Int :=
  match stored with
  | none => head - cfg.confirmations_required
  | some l => l

/-- The `from_block` computed by the first loop iteration after a fresh
first-run initialisation, assuming the head has not moved since startup:
`last_processed_block + 1` with `last_processed_block` set by
`initial_last_processed` (line 285 after line 277). -/
def first_from_block (cfg : Config) (head : Int) : Int :=
  initial_last_processed cfg none head + 1

/-! Helper lemmas shared by the claim theorems. -/

theorem ite_gt_eq_min (a b : Int) : (if a > b then b else a) = min a b := by
  rw [min_def]
  split_ifs with h1 h2 <;> omega

/-- A sample event used as concrete input in several witnesses. -/
def eventA : LogReceipt :=
  { transactionHash := "0xabc", blockNumber := 601, sender := "0xs",
    recipient := "0xr", amount := 5, destinationChainId := 2 }

/-! Claim theorems. -/

/-- Claim C10: for every pair of integers `from_block > to_block`,
`scan_blocks` returns the empty list without invoking the underlying ledger
read at all (invocation count `0`), whatever the read oracle is. -/
theorem scan_blocks_inverted_range_noop
    (read : Int → Int → Except ScanError (List LogReceipt))
    (from_block to_block : Int) (h : from_block > to_block) :
    scan_blocks read from_block to_block = ([], 0) := by
  simp [scan_blocks, h]

/-- Witness for C10: scanning `(700, 600)` against a read oracle that would
return an event is still the empty list with zero reads. -/
theorem scan_blocks_inverted_range_noop_witness :
    scan_blocks (fun _ _ => Except.ok [eventA]) 700 600 = ([], 0) :=
  scan_blocks_inverted_range_noop (fun _ _ => Except.ok [eventA]) 700 600
    (by decide)

def cfgC3 : Config :=
  { confirmations_required := 12, scan_batch_size := 100,
    poll_interval_seconds := 10 }

/-- Counterexample to C3 as stated: with `head = 1000` and
`confirmations_required = 12`, the first-run initialisation sets
`last_processed_block = 988`, so the first computed range starts at
`from = 989`, not at the confirmed head `988`. -/
theorem first_run_from_counterexample :
    initial_last_processed cfgC3 none 1000 = 988 ∧
    first_from_block cfgC3 1000 = 989 ∧
    first_from_block cfgC3 1000 ≠ 988 := by
  refine ⟨rfl, rfl, by decide⟩

/-- Claim C3 (amended): on first run with an empty checkpoint the code sets
`last_processed_block` to `head - confirmations_required` and the first
computed range starts at `from = head - confirmations_required + 1`; with
`head = 1000`, `confirmations_required = 12` this is `989` (never `0`). -/
theorem first_run_skip_amended :
    (∀ (cfg : Config) (head : Int),
      initial_last_processed cfg none head = head - cfg.confirmations_required
      ∧ first_from_block cfg head = head - cfg.confirmations_required + 1) ∧
    first_from_block cfgC3 1000 = 989 ∧ first_from_block cfgC3 1000 ≠ 0 := by
  refine ⟨fun cfg head => ⟨rfl, rfl⟩, rfl, by decide⟩

/-- Counterexample to C2 as stated: with an executor that rejects the
submission, running the per-event relay path twice on the same event invokes
the executor twice, not exactly once (the identifier is only marked processed
on success, line 306-307). -/
theorem relay_twice_counterexample :
    (relay_path_twice false false ∅ eventA).2 = 2 ∧
    (relay_path_twice false false ∅ eventA).2 ≠ 1 := by
  refine ⟨by decide, by decide⟩

/-- Claim C2 (amended): if the event's identifier is not yet in the processed
set and the executor accepts the first submission, then running the per-event
relay path twice invokes the executor exactly once — the identifier is marked
on the first run and the second run skips it. -/
theorem relay_twice_amended (r2 : Bool) (processed : Finset String)
    (e : LogReceipt) (h : e.transactionHash ∉ processed) :
    (relay_path_twice true r2 processed e).2 = 1 := by
  simp [relay_path_twice, relay_path, h]

/-- Witness for the amended C2 at a concrete event with an empty processed
set and a second-run executor that would reject. -/
theorem relay_twice_amended_witness :
    (relay_path_twice true false ∅ eventA).2 = 1 :=
  relay_twice_amended false ∅ eventA (by decide)

/-- Workhorse: whenever an iteration scanned a range `(f, t)`, the head query
succeeded, `f = last + 1` lies below the confirmed head, `t` is the capped
upper bound, and the whole outcome has the scan-branch shape. -/
theorem run_iteration_scanned (cfg : Config) (s : BridgeState)
    (inp : IterInput) (f t : Int)
    (hr : (run_iteration cfg s inp).scannedRange = some (f, t)) :
    ∃ H, inp.head = some H ∧
      f = s.last_processed_block + 1 ∧
      f ≤ H - cfg.confirmations_required ∧
      t = min (H - cfg.confirmations_required)
            (f + cfg.scan_batch_size - 1) ∧
      run_iteration cfg s inp =
        { state :=
            { last_processed_block := t,
              processed_transactions :=
                (processEvents inp.relay s.processed_transactions
                    ((scan_blocks inp.read f t).1)).1 },
          submitted :=
            (processEvents inp.relay s.processed_transactions
                ((scan_blocks inp.read f t).1)).2,
          scannedRange := some (f, t),
          savedState :=
            some (t, (processEvents inp.relay s.processed_transactions
                ((scan_blocks inp.read f t).1)).1),
          sleptFor :=
            if t - f < cfg.scan_batch_size - 1 then
              some cfg.poll_interval_seconds
            else none } := by
  obtain ⟨hd, read, relay⟩ := inp
  cases hd with
  | none => simp [run_iteration] at hr
  | some H =>
      by_cases hw :
          s.last_processed_block + 1 > H - cfg.confirmations_required
      · simp [run_iteration, hw] at hr
      · simp only [run_iteration, hw, if_false, Option.some.injEq,
          Prod.mk.injEq] at hr
        obtain ⟨hf, ht⟩ := hr
        subst hf
        rw [ite_gt_eq_min] at ht
        subst ht
        refine ⟨H, rfl, rfl, by omega, rfl, ?_⟩
        simp [run_iteration, hw, ite_gt_eq_min]

/-- One iteration never decreases `last_processed_block` (for a non-negative
batch size): a helper step lemma shared by the claim proofs. -/
theorem run_iteration_last_mono (cfg : Config) (s : BridgeState)
    (inp : IterInput) (hb : 0 ≤ cfg.scan_batch_size) :
    s.last_processed_block ≤
      (run_iteration cfg s inp).state.last_processed_block := by
  obtain ⟨hd, read, relay⟩ := inp
  cases hd with
  | none => simp [run_iteration]
  | some H =>
      by_cases hw :
          s.last_processed_block + 1 > H - cfg.confirmations_required
      · simp [run_iteration, hw]
      · simp only [run_iteration, hw, if_false]
        rw [ite_gt_eq_min]
        refine le_min (by omega) (by omega)

/-- Claim C4: `last_processed_block` is monotonically non-decreasing across
any sequence of loop iterations, whatever each iteration scans, relays, or
fails on, provided the configured batch size is non-negative. -/
theorem checkpoint_monotone (cfg : Config) (s : BridgeState)
    (inputs : List IterInput) (hb : 0 ≤ cfg.scan_batch_size) :
    s.last_processed_block ≤
      (run_iterations cfg s inputs).last_processed_block := by
  induction inputs generalizing s with
  | nil => exact le_refl _
  | cons i rest ih =>
      exact le_trans (run_iteration_last_mono cfg s i hb) (ih _)

def cfg4 : Config :=
  { confirmations_required := 12, scan_batch_size := 100,
    poll_interval_seconds := 10 }

def st4 : BridgeState := { last_processed_block := 600,
                           processed_transactions := ∅ }

def inputs4 : List IterInput :=
  [ { head := some 700, read := fun _ _ => Except.ok [],
      relay := fun _ => true },
    { head := none, read := fun _ _ => Except.error ScanError.timeout,
      relay := fun _ => false } ]

/-- Witness for C4: a concrete two-iteration run (one scan, one failed head
query) never drops the checkpoint below its starting value `600`. -/
theorem checkpoint_monotone_witness :
    st4.last_processed_block ≤
      (run_iterations cfg4 st4 inputs4).last_processed_block :=
  checkpoint_monotone cfg4 st4 inputs4 (by decide)

/-- Claim C5: the upper bound of every range actually passed to the scanner
is at most `head - confirmations_required` for the head observed by that
iteration. -/
theorem scanned_to_le_confirmed_head (cfg : Config) (s : BridgeState)
    (inp : IterInput) (H f t : Int) (hh : inp.head = some H)
    (hr : (run_iteration cfg s inp).scannedRange = some (f, t)) :
    t ≤ H - cfg.confirmations_required := by
  obtain ⟨H2, hh2, -, -, ht, -⟩ := run_iteration_scanned cfg s inp f t hr
  rw [hh] at hh2
  obtain rfl := Option.some.inj hh2
  subst ht
  exact min_le_left _ _

def cfg5 : Config :=
  { confirmations_required := 12, scan_batch_size := 100,
    poll_interval_seconds := 10 }

def st5 : BridgeState := { last_processed_block := 600,
                           processed_transactions := ∅ }

def inp5 : IterInput :=
  { head := some 1000, read := fun _ _ => Except.ok [],
    relay := fun _ => true }

/-- Witness for C5: with `last = 600`, `head = 1000`, `conf = 12`, the
scanned range is `(601, 700)` and `700 ≤ 1000 - 12`. -/
theorem scanned_to_le_confirmed_head_witness :
    (run_iteration cfg5 st5 inp5).scannedRange = some (601, 700) ∧
    (700 : Int) ≤ 1000 - cfg5.confirmations_required :=
  ⟨by decide, scanned_to_le_confirmed_head cfg5 st5 inp5 1000 601 700 rfl
    (by decide)⟩

/-- Claim C6: the scanned upper bound is always
`min (confirmedHead) (from + scan_batch_size - 1)`. -/
theorem scanned_to_is_min (cfg : Config) (s : BridgeState)
    (inp : IterInput) (H f t : Int) (hh : inp.head = some H)
    (hr : (run_iteration cfg s inp).scannedRange = some (f, t)) :
    t = min (H - cfg.confirmations_required)
          (f + cfg.scan_batch_size - 1) := by
  obtain ⟨H2, hh2, -, -, ht, -⟩ := run_iteration_scanned cfg s inp f t hr
  rw [hh] at hh2
  obtain rfl := Option.some.inj hh2
  exact ht

def cfg6 : Config :=
  { confirmations_required := 0, scan_batch_size := 100,
    poll_interval_seconds := 10 }

def st6 : BridgeState := { last_processed_block := 500,
                           processed_transactions := ∅ }

def inp6 : IterInput :=
  { head := some 800, read := fun _ _ => Except.ok [],
    relay := fun _ => true }

/-- Witness for C6, at the claim's own numbers: `last = 500`,
`confirmedHead = 800`, `scan_batch_size = 100` gives the range `(501, 600)`
with `600 = min 800 600`. -/
theorem scanned_to_is_min_witness :
    (run_iteration cfg6 st6 inp6).scannedRange = some (501, 600) ∧
    (600 : Int) = min (800 - cfg6.confirmations_required)
      (501 + cfg6.scan_batch_size - 1) :=
  ⟨by decide, scanned_to_is_min cfg6 st6 inp6 800 501 600 rfl (by decide)⟩

/-- Claim C7: when `from = last + 1` exceeds the confirmed head, the
iteration produces no range, submits no event, saves nothing, leaves the
state untouched, and sleeps for the poll interval. -/
theorem wait_when_no_confirmed_range (cfg : Config) (s : BridgeState)
    (inp : IterInput) (H : Int) (hh : inp.head = some H)
    (hw : s.last_processed_block + 1 > H - cfg.confirmations_required) :
    run_iteration cfg s inp =
      { state := s, submitted := [], scannedRange := none, savedState := none,
        sleptFor := some cfg.poll_interval_seconds } := by
  obtain ⟨hd, read, relay⟩ := inp
  have hh2 : hd = some H := hh
  subst hh2
  simp [run_iteration, hw]

def cfg7 : Config :=
  { confirmations_required := 0, scan_batch_size := 100,
    poll_interval_seconds := 10 }

def st7 : BridgeState := { last_processed_block := 800,
                           processed_transactions := ∅ }

def inp7 : IterInput :=
  { head := some 790, read := fun _ _ => Except.ok [],
    relay := fun _ => true }

/-- Witness for C7, at the claim's own numbers: `last = 800`,
`confirmedHead = 790` waits for the poll interval with nothing scanned. -/
theorem wait_when_no_confirmed_range_witness :
    run_iteration cfg7 st7 inp7 =
      { state := st7, submitted := [], scannedRange := none,
        savedState := none, sleptFor := some 10 } :=
  wait_when_no_confirmed_range cfg7 st7 inp7 790 rfl (by decide)

/-- Claim C9: after a scanned batch, the iteration sleeps for the poll
interval exactly when the batch was partial (`t - f < scan_batch_size - 1`)
and skips the sleep exactly when it was full (`t - f = scan_batch_size - 1`).
-/
theorem sleep_iff_partial_batch (cfg : Config) (s : BridgeState)
    (inp : IterInput) (f t : Int)
    (hr : (run_iteration cfg s inp).scannedRange = some (f, t)) :
    ((run_iteration cfg s inp).sleptFor = some cfg.poll_interval_seconds ↔
      t - f < cfg.scan_batch_size - 1) ∧
    ((run_iteration cfg s inp).sleptFor = none ↔
      t - f = cfg.scan_batch_size - 1) := by
  obtain ⟨H, -, hf, hle, ht, heq⟩ := run_iteration_scanned cfg s inp f t hr
  have htle : t ≤ f + cfg.scan_batch_size - 1 := by
    rw [ht]; exact min_le_right _ _
  rw [heq]
  by_cases hc : t - f < cfg.scan_batch_size - 1 <;> simp [hc] <;> omega

def cfg9 : Config :=
  { confirmations_required := 0, scan_batch_size := 100,
    poll_interval_seconds := 10 }

def st9 : BridgeState := { last_processed_block := 600,
                           processed_transactions := ∅ }

def inp9 : IterInput :=
  { head := some 650, read := fun _ _ => Except.ok [],
    relay := fun _ => true }

/-- Witness for C9: the partial batch `(601, 650)` (49 < 99 blocks) sleeps
for the poll interval and does not skip it. -/
theorem sleep_iff_partial_batch_witness :
    ((run_iteration cfg9 st9 inp9).sleptFor =
        some cfg9.poll_interval_seconds ↔
      (650 : Int) - 601 < cfg9.scan_batch_size - 1) ∧
    ((run_iteration cfg9 st9 inp9).sleptFor = none ↔
      (650 : Int) - 601 = cfg9.scan_batch_size - 1) :=
  sleep_iff_partial_batch cfg9 st9 inp9 601 650 (by decide)

def cfgC1 : Config :=
  { confirmations_required := 0, scan_batch_size := 100,
    poll_interval_seconds := 10 }

def stC1 : BridgeState := { last_processed_block := 600,
                            processed_transactions := ∅ }

def inpC1 : IterInput :=
  { head := some 700, read := fun _ _ => Except.error ScanError.timeout,
    relay := fun _ => true }

/-- Counterexample to C1 as stated: with `last_processed_block = 600` the
iteration scans `(601, 700)`, the underlying log read raises, the failure is
swallowed (`scan_blocks` returns `[]`), and the iteration still sets
`last_processed_block` to `700` — not the unchanged `600` the claim
requires. -/
theorem scan_failure_counterexample :
    inpC1.read 601 700 = Except.error ScanError.timeout ∧
    (run_iteration cfgC1 stC1 inpC1).scannedRange = some (601, 700) ∧
    (run_iteration cfgC1 stC1 inpC1).state.last_processed_block = 700 ∧
    (run_iteration cfgC1 stC1 inpC1).state.last_processed_block ≠ 600 :=
  ⟨rfl, by decide, by decide, by decide⟩

/-- Claim C1 (amended): when the underlying log read of the scanned range
`(f, t)` raises, the failure is converted into an empty batch and the
checkpoint still advances: the iteration ends with
`last_processed_block = t` and persists `(t, old processed set)`, exactly as
a successful scan that found zero events would.  The last-scanned height is
unchanged only on iterations that scan no range at all. -/
theorem scan_failure_advances_checkpoint (cfg : Config) (s : BridgeState)
    (inp : IterInput) (f t : Int) (err : ScanError)
    (hr : (run_iteration cfg s inp).scannedRange = some (f, t))
    (hfail : inp.read f t = Except.error err) :
    (run_iteration cfg s inp).state.last_processed_block = t ∧
    (run_iteration cfg s inp).savedState =
      some (t, s.processed_transactions) := by
  obtain ⟨H, -, hf, hle, ht, heq⟩ := run_iteration_scanned cfg s inp f t hr
  have hev : (scan_blocks inp.read f t).1 = [] := by
    unfold scan_blocks
    split_ifs with h
    · rfl
    · rw [hfail]
  rw [heq]
  simp [hev, processEvents]

/-- Witness for the amended C1 at the claim's own numbers: the failed scan of
`(601, 700)` from `last = 600` persists `700` with an unchanged set. -/
theorem scan_failure_advances_checkpoint_witness :
    (run_iteration cfgC1 stC1 inpC1).state.last_processed_block = 700 ∧
    (run_iteration cfgC1 stC1 inpC1).savedState =
      some (700, stC1.processed_transactions) :=
  scan_failure_advances_checkpoint cfgC1 stC1 inpC1 601 700
    ScanError.timeout (by decide) rfl

/-- Any member of the scanner's result list comes from a successful read of
exactly the requested range. -/
theorem scan_blocks_mem (read : Int → Int → Except ScanError (List LogReceipt))
    (f t : Int) (e : LogReceipt) (he : e ∈ (scan_blocks read f t).1) :
    ∃ evs, read f t = Except.ok evs ∧ e ∈ evs := by
  unfold scan_blocks at he
  split_ifs at he with hft
  · simp at he
  · cases hrt : read f t with
    | ok evs =>
        rw [hrt] at he
        exact ⟨evs, rfl, he⟩
    | error err =>
        rw [hrt] at he
        simp at he

/-- Every identifier in the processed set after the event loop is either an
identifier that was already there or the hash of one of the offered events. -/
theorem processEvents_mem (relay : LogReceipt → Bool)
    (processed : Finset String) (events : List LogReceipt) (id : String)
    (h : id ∈ (processEvents relay processed events).1) :
    id ∈ processed ∨ ∃ e ∈ events, e.transactionHash = id := by
  induction events generalizing processed with
  | nil =>
      exact Or.inl h
  | cons e rest ih =>
      simp only [processEvents] at h
      by_cases h1 : e.transactionHash ∈ processed
      · rw [if_pos h1] at h
        rcases ih processed h with h2 | ⟨e2, he2, hh2⟩
        · exact Or.inl h2
        · exact Or.inr ⟨e2, List.mem_cons_of_mem _ he2, hh2⟩
      · rw [if_neg h1] at h
        by_cases h3 : relay e
        · rw [if_pos h3] at h
          rcases ih (insert e.transactionHash processed) h with h2 | h2
          · rcases Finset.mem_insert.mp h2 with h4 | h4
            · exact Or.inr ⟨e, List.mem_cons_self e rest, h4.symm⟩
            · exact Or.inl h4
          · rcases h2 with ⟨e2, he2, hh2⟩
            exact Or.inr ⟨e2, List.mem_cons_of_mem _ he2, hh2⟩
        · rw [if_neg h3] at h
          rcases ih processed h with h2 | ⟨e2, he2, hh2⟩
          · exact Or.inl h2
          · exact Or.inr ⟨e2, List.mem_cons_of_mem _ he2, hh2⟩

/-- Claim C8: given a height assignment under which the pre-state satisfies
the invariant (every processed identifier belongs to an event at height at
most `last_processed_block`) and a read oracle that only reports events
inside the requested range, every checkpoint the iteration persists
satisfies the invariant: each identifier in the saved set has height at most
the saved `last_processed_block`. -/
theorem relayed_ids_below_checkpoint (height : String → Int) (cfg : Config)
    (s : BridgeState) (inp : IterInput) (l : Int) (P : Finset String)
    (hb : 0 ≤ cfg.scan_batch_size)
    (hinv : ∀ id ∈ s.processed_transactions,
      height id ≤ s.last_processed_block)
    (hread : ∀ f2 t2 evs, inp.read f2 t2 = Except.ok evs →
      ∀ e ∈ evs, e.blockNumber ≤ t2 ∧
        height e.transactionHash = e.blockNumber)
    (hsave : (run_iteration cfg s inp).savedState = some (l, P)) :
    ∀ id ∈ P, height id ≤ l := by
  obtain ⟨hd, read, relay⟩ := inp
  cases hd with
  | none => simp [run_iteration] at hsave
  | some H =>
      by_cases hw :
          s.last_processed_block + 1 > H - cfg.confirmations_required
      · simp [run_iteration, hw] at hsave
      · simp only [run_iteration, hw, if_false, Option.some.injEq,
          Prod.mk.injEq] at hsave
        rw [ite_gt_eq_min] at hsave
        obtain ⟨hl, hP⟩ := hsave
        subst hl
        subst hP
        intro id hid
        have hlast : s.last_processed_block ≤
            min (H - cfg.confirmations_required)
              (s.last_processed_block + 1 + cfg.scan_batch_size - 1) :=
          le_min (by omega) (by omega)
        rcases processEvents_mem relay s.processed_transactions _ id hid
          with hold | ⟨e, he, hhash⟩
        · exact le_trans (hinv id hold) hlast
        · obtain ⟨evs, hok, hevs⟩ := scan_blocks_mem read _ _ e he
          obtain ⟨hble, hht⟩ := hread _ _ evs hok e hevs
          rw [← hhash, hht]
          exact hble

def heightW : String → Int := fun _ => 600

def cfg8 : Config :=
  { confirmations_required := 0, scan_batch_size := 100,
    poll_interval_seconds := 10 }

def st8 : BridgeState := { last_processed_block := 600,
                           processed_transactions := {"0xold"} }

def inp8 : IterInput :=
  { head := some 700, read := fun _ _ => Except.ok [],
    relay := fun _ => true }

/-- Witness for C8: after the batch `(601, 700)` the saved checkpoint is
`(700, {"0xold"})` and the invariant holds at its sole identifier. -/
theorem relayed_ids_below_checkpoint_witness :
    heightW "0xold" ≤ (700 : Int) :=
  relayed_ids_below_checkpoint heightW cfg8 st8 inp8 700 {"0xold"}
    (by decide)
    (by intro id hid; simp [heightW, st8])
    (by
      intro f2 t2 evs hok e he
      have hok2 : Except.ok ([] : List LogReceipt) = Except.ok evs := hok
      obtain rfl : ([] : List LogReceipt) = evs := by simpa using hok2
      simp at he)
    (by decide) "0xold" (by decide)

end Bridge
